import Mathlib

/-!
Verification development for the `FormulaOne` data store
(`formula_one.py`): a pandas-based scraper that maintains five flat
relational tables (races, circuits, results, drivers, constructors),
merges freshly fetched rows into previously persisted ones, and exposes
an incremental `update` operation keyed on a derived `RaceID`.

Shallow embedding conventions:
* a pandas `DataFrame` is a `List` of row structures; the explicit
  row-index column written by `to_csv` is modelled by pairing each row
  with a `Nat` label, so an on-disk file is a `List (Nat × row)`;
* a Python decimal string (the JSON values for `season`, `round`,
  `position`, `points`, `grid`, `laps`) is a list of decimal digits,
  and `int(...)` on it is `digitsVal`;
* `dict.get` returning `None` is `Option`; code paths that raise a
  Python exception (e.g. `len()` applied to the integer default `0` in
  `_get_race_id`) are modelled by an `Option`-valued result being
  `none`;
* `pd.to_datetime` is modelled as the formatted source string itself
  (no claim inspects the parsed value);
* the upstream API is a function from a year to the list of per-round
  responses, where `none` stands for a non-ok response or an empty
  `Races` list (both terminate the round enumeration loop).
-/

/-! ### Decimal-digit strings -/

/-- Value of a decimal-digit string, as computed by Python `int` on it:
left fold multiplying by 10. -/
def digitsVal (ds : List Nat) : Nat := ds.foldl (fun a d => a * 10 + d) 0

/-- Fuel-driven most-significant-first digit expansion. -/
def decDigitsAux : Nat → Nat → List Nat
  | 0, _ => []
  | _ + 1, 0 => []
  | fuel + 1, n + 1 => decDigitsAux fuel ((n + 1) / 10) ++ [(n + 1) % 10]

/-- Canonical decimal-digit string of a natural number (Python `str`). -/
def decDigits (n : Nat) : List Nat :=
  if n = 0 then [0] else decDigitsAux n n

/-! ### pandas primitives -/

/-- Worker for keep-first deduplication: `seen` accumulates the keys of
rows already emitted. -/
def dedupGo {α β : Type} [DecidableEq β] (key : α → β) (seen : List β) :
    List α → List α
  | [] => []
  | x :: xs =>
    if key x ∈ seen then dedupGo key seen xs
    else x :: dedupGo key (key x :: seen) xs

/-- pandas `DataFrame.drop_duplicates` on a plain row list: keep the
first occurrence of each full row. -/
def drop_duplicates {α : Type} [DecidableEq α] (l : List α) : List α :=
  dedupGo id [] l

/-- pandas `DataFrame.drop_duplicates` on an indexed frame: rows are
compared on their columns only, the index label of each kept row is
preserved. -/
def dropDupRows {α : Type} [DecidableEq α] (l : List (Nat × α)) :
    List (Nat × α) :=
  dedupGo Prod.snd [] l

/-- Label rows with consecutive indices starting at `i`. -/
def indexFrom {α : Type} : Nat → List α → List (Nat × α)
  | _, [] => []
  | i, x :: xs => (i, x) :: indexFrom (i + 1) xs

/-- pandas `reset_index(drop=True)` (also the index a freshly built
`DataFrame` carries): label rows `0, 1, 2, ...`. -/
def reset_index {α : Type} (l : List α) : List (Nat × α) := indexFrom 0 l

/-- pandas `Series.max` on an integer column: `none` on an empty column
(where the real library yields `NaN`, which crashes the sole caller). -/
def colMax : List Int → Option Int
  | [] => none
  | x :: xs => some (xs.foldl max x)

/-- Comparison of rows by a key into a linear order, the relation
`sort_values` sorts by. -/
def keyLe {α κ : Type} [LinearOrder κ] (k : α → κ) (a b : α) : Prop :=
  k a ≤ k b

instance {α κ : Type} [LinearOrder κ] (k : α → κ) : DecidableRel (keyLe k) :=
  fun a b => inferInstanceAs (Decidable (k a ≤ k b))

instance {α κ : Type} [LinearOrder κ] (k : α → κ) : IsTotal α (keyLe k) :=
  ⟨fun a b => le_total (k a) (k b)⟩

instance {α κ : Type} [LinearOrder κ] (k : α → κ) : IsTrans α (keyLe k) :=
  ⟨fun _ _ _ h1 h2 => le_trans h1 h2⟩

/-- Sort key for a nullable string column; pandas places missing values
last, so `none` maps above every present string. -/
def optStrKey : Option String → Bool ×ₗ String
  | none => toLex (true, "")
  | some s => toLex (false, s)

/-- Python `range(a, b + 1)` over integers. -/
def intRange (a b : Int) : List Int :=
  (List.range (b + 1 - a).toNat).map fun i => a + (i : Int)

/-! ### Upstream JSON payloads (shapes dereferenced by the code) -/

structure LocationData where
  lat : Option String
  long : Option String
  locality : Option String
  country : Option String
deriving DecidableEq

structure CircuitData where
  circuitId : Option String
  circuitName : Option String
  location : LocationData
  url : Option String
deriving DecidableEq

structure DriverData where
  driverId : Option String
  code : Option String
  givenName : Option String
  familyName : Option String
  dateOfBirth : Option String
  nationality : Option String
  url : Option String
deriving DecidableEq

structure ConstructorData where
  constructorId : Option String
  name : Option String
  nationality : Option String
  url : Option String
deriving DecidableEq

/-- One element of the `Results` array.  The numeric fields are decimal
strings when present.  `time` flattens the `Time.time` path (missing
when the `Time` block is absent); `fastestLapTime` and
`fastestLapSpeed` flatten the `FastestLap.Time.time` and
`FastestLap.AverageSpeed.speed` paths (missing when `FastestLap` is
absent). -/
structure ResultData where
  position : Option (List Nat)
  points : Option (List Nat)
  grid : Option (List Nat)
  laps : Option (List Nat)
  status : Option String
  time : Option String
  fastestLapTime : Option String
  fastestLapSpeed : Option String
  driver : DriverData
  constructor : ConstructorData
deriving DecidableEq

/-- One element of the `Races` array of a results payload. -/
structure RaceData where
  season : Option (List Nat)
  round : Option (List Nat)
  url : Option String
  raceName : Option String
  circuit : CircuitData
  date : Option String
  time : Option String
  results : List ResultData
deriving DecidableEq

/-! ### Table rows -/

structure RaceRow where
  RaceID : Nat
  Season : Int
  Round : Int
  RaceName : Option String
  CircuitID : Option String
  DateTime : String
  URL : Option String
deriving DecidableEq

structure CircuitRow where
  CircuitID : Option String
  CircuitName : Option String
  Latitude : Option String
  Longitude : Option String
  Locality : Option String
  Country : Option String
  URL : Option String
deriving DecidableEq

structure ResultRow where
  RaceID : Nat
  Position : Int
  Points : Int
  DriverID : Option String
  ConstructorID : Option String
  Grid : Int
  Laps : Int
  Status : Option String
  Time : Option String
  FastestLapTime : Option String
  FastestLapSpeed : Option String
deriving DecidableEq

structure DriverRow where
  DriverID : Option String
  Code : Option String
  FirstName : Option String
  LastName : Option String
  DOB : Option String
  Nationality : Option String
  URL : Option String
deriving DecidableEq

structure ConstructorRow where
  ConstructorID : Option String
  Name : Option String
  Nationality : Option String
  URL : Option String
deriving DecidableEq

/-! ### Row construction (`_get_race_id`, `_get_race`, `_get_circuit`,
`_get_results_drivers_constructors`) -/

/-- `_get_race_id`.  The code reads
`rnd = data.get(..., 0); rnd = rnd if len(rnd) == 2 else f..0rnd..` and
then `int(f..yearrnd..)`.  When the `round` key is absent the default
is the integer `0` and `len` raises `TypeError`, modelled as `none`.
A missing `season` defaults to the integer `0`, which formats as the
digit string `[0]`. -/
def _get_race_id (data : RaceData) : Option Nat :=
  match data.round with
  | none => none
  | some rnd =>
    let rnd2 := if rnd.length = 2 then rnd else 0 :: rnd
    let year := data.season.getD [0]
    some (digitsVal (year ++ rnd2))

/-- Python `int` applied to the result of a `dict.get` with an integer
default: the digit string parses to its value, the absent case yields
the default. -/
def intField (v : Option (List Nat)) (dflt : Int) : Int :=
  match v with
  | some ds => (digitsVal ds : Int)
  | none => dflt

/-- The `RACES` row built by `_get_race` once the `RaceID` is known. -/
def raceRowOf (data : RaceData) (rid : Nat) : RaceRow :=
  { RaceID := rid
    Season := intField data.season (-1)
    Round := intField data.round (-1)
    RaceName := data.raceName
    CircuitID := data.circuit.circuitId
    DateTime := data.date.getD "1900-01-01" ++ " " ++ data.time.getD "01:01:01Z"
    URL := data.url }

/-- `_get_race`: fails exactly when `_get_race_id` raises. -/
def _get_race (data : RaceData) : Option RaceRow :=
  (_get_race_id data).map (raceRowOf data)

/-- `_get_circuit`. -/
def _get_circuit (data : RaceData) : CircuitRow :=
  { CircuitID := data.circuit.circuitId
    CircuitName := data.circuit.circuitName
    Latitude := data.circuit.location.lat
    Longitude := data.circuit.location.long
    Locality := data.circuit.location.locality
    Country := data.circuit.location.country
    URL := data.circuit.url }

/-- One `RESULTS` row. -/
def resultRowOf (rid : Nat) (r : ResultData) : ResultRow :=
  { RaceID := rid
    Position := intField r.position (-1)
    Points := intField r.points (-1)
    DriverID := r.driver.driverId
    ConstructorID := r.constructor.constructorId
    Grid := intField r.grid (-1)
    Laps := intField r.laps (-1)
    Status := r.status
    Time := r.time
    FastestLapTime := r.fastestLapTime
    FastestLapSpeed := r.fastestLapSpeed }

/-- One `DRIVERS` row. -/
def driverRowOf (r : ResultData) : DriverRow :=
  { DriverID := r.driver.driverId
    Code := r.driver.code
    FirstName := r.driver.givenName
    LastName := r.driver.familyName
    DOB := r.driver.dateOfBirth
    Nationality := r.driver.nationality
    URL := r.driver.url }

/-- One `CONSTRUCTORS` row. -/
def constructorRowOf (r : ResultData) : ConstructorRow :=
  { ConstructorID := r.constructor.constructorId
    Name := r.constructor.name
    Nationality := r.constructor.nationality
    URL := r.constructor.url }

/-- `_get_results_drivers_constructors`: computes the `RaceID` first
(so it fails exactly when `_get_race_id` raises), then one row per
element of `Results` for each of the three tables. -/
def _get_results_drivers_constructors (data : RaceData) :
    Option (List ResultRow × List DriverRow × List ConstructorRow) :=
  (_get_race_id data).map fun rid =>
    (data.results.map (resultRowOf rid), data.results.map driverRowOf,
     data.results.map constructorRowOf)

/-! ### Season and range collection -/

structure RawTables where
  races : List RaceRow
  circuits : List CircuitRow
  results : List ResultRow
  drivers : List DriverRow
  constructors : List ConstructorRow
deriving DecidableEq

def emptyTables : RawTables := ⟨[], [], [], [], []⟩

/-- `_collect_data_from`, over the list of per-round responses of one
year: enumeration stops at the first `none` (non-ok response or empty
`Races` list); a failing row construction aborts the whole run. -/
def _collect_data_from : List (Option RaceData) → Option RawTables
  | [] => some emptyTables
  | none :: _ => some emptyTables
  | some d :: rest =>
    match _get_race d, _get_results_drivers_constructors d,
          _collect_data_from rest with
    | some race, some (res, drs, cons), some t =>
      some ⟨race :: t.races, _get_circuit d :: t.circuits,
            res ++ t.results, drs ++ t.drivers, cons ++ t.constructors⟩
    | _, _, _ => none

/-- The upstream API: a year maps to its list of per-round responses. -/
def Upstream : Type := Int → List (Option RaceData)

/-- The year loop of `_scrape_date_range`: concatenate the accumulated
tables of each year. -/
def scrapeYears (up : Upstream) : List Int → Option RawTables
  | [] => some emptyTables
  | y :: ys =>
    match _collect_data_from (up y), scrapeYears up ys with
    | some t, some rest =>
      some ⟨t.races ++ rest.races, t.circuits ++ rest.circuits,
            t.results ++ rest.results, t.drivers ++ rest.drivers,
            t.constructors ++ rest.constructors⟩
    | _, _ => none

/-! ### Store state, disk files, persistence -/

structure StoreState where
  races : Option (List RaceRow)
  circuits : Option (List CircuitRow)
  results : Option (List ResultRow)
  drivers : Option (List DriverRow)
  constructors : Option (List ConstructorRow)
deriving DecidableEq

def emptyState : StoreState := ⟨none, none, none, none, none⟩

/-- `_all_data_loaded`. -/
def _all_data_loaded (st : StoreState) : Bool :=
  st.races.isSome && st.circuits.isSome && st.results.isSome &&
  st.drivers.isSome && st.constructors.isSome

/-- The five on-disk csv files; `none` means the file is absent. -/
structure DiskFiles where
  races : Option (List (Nat × RaceRow))
  circuits : Option (List (Nat × CircuitRow))
  results : Option (List (Nat × ResultRow))
  drivers : Option (List (Nat × DriverRow))
  constructors : Option (List (Nat × ConstructorRow))
deriving DecidableEq

structure World where
  state : StoreState
  files : DiskFiles
deriving DecidableEq

/-- Sort keys of `save_data`: races by `RaceID`. -/
def sortRaces (l : List RaceRow) : List RaceRow :=
  List.insertionSort (keyLe RaceRow.RaceID) l

/-- Results sort lexicographically by `RaceID` then `Position`. -/
def resKey (r : ResultRow) : Nat ×ₗ Int := toLex (r.RaceID, r.Position)

def sortResults (l : List ResultRow) : List ResultRow :=
  List.insertionSort (keyLe resKey) l

def sortCircuits (l : List CircuitRow) : List CircuitRow :=
  List.insertionSort (keyLe fun c => optStrKey c.CircuitID) l

def sortDrivers (l : List DriverRow) : List DriverRow :=
  List.insertionSort (keyLe fun d => optStrKey d.DriverID) l

def sortConstructors (l : List ConstructorRow) : List ConstructorRow :=
  List.insertionSort (keyLe fun c => optStrKey c.ConstructorID) l

inductive SaveStatus
  | skipped
  | saved
deriving DecidableEq

/-- `save_data`: a no-op unless all five tables are loaded; otherwise
each table is sorted (`sort_values`), re-labelled
(`reset_index(drop=True)`), deduplicated (`drop_duplicates`, which
keeps the index label of each surviving row), stored back in memory and
written to its file. -/
def save_data (w : World) : World × SaveStatus :=
  match w.state.races, w.state.circuits, w.state.results,
        w.state.drivers, w.state.constructors with
  | some ra, some ci, some re, some dr, some co =>
    let raF := dropDupRows (reset_index (sortRaces ra))
    let ciF := dropDupRows (reset_index (sortCircuits ci))
    let reF := dropDupRows (reset_index (sortResults re))
    let drF := dropDupRows (reset_index (sortDrivers dr))
    let coF := dropDupRows (reset_index (sortConstructors co))
    (⟨⟨some (raF.map Prod.snd), some (ciF.map Prod.snd),
       some (reF.map Prod.snd), some (drF.map Prod.snd),
       some (coF.map Prod.snd)⟩,
      ⟨some raF, some ciF, some reF, some drF, some coF⟩⟩,
     SaveStatus.saved)
  | _, _, _, _, _ => (w, SaveStatus.skipped)

/-- Output of `_scrape_date_range`: the five returned frames and the
files it writes (races and results keep their fresh `0..n-1` index;
the three deduplicated frames keep the labels of surviving rows). -/
structure ScrapedRange where
  tables : RawTables
  files : DiskFiles
deriving DecidableEq

/-- `_scrape_date_range`: collect `[start_year, end_year]` (the end
defaulting to the current year), deduplicate only circuits, drivers and
constructors, write all five files, and return the frames. -/
def _scrape_date_range (up : Upstream) (currentYear start_year : Int)
    (end_year : Option Int) : Option ScrapedRange :=
  (scrapeYears up (intRange start_year (end_year.getD currentYear))).map
    fun t =>
      { tables := ⟨t.races, drop_duplicates t.circuits, t.results,
                   drop_duplicates t.drivers,
                   drop_duplicates t.constructors⟩
        files := ⟨some (reset_index t.races),
                  some (dropDupRows (reset_index t.circuits)),
                  some (reset_index t.results),
                  some (dropDupRows (reset_index t.drivers)),
                  some (dropDupRows (reset_index t.constructors))⟩ }

/-- Output of `scrape`: the final world, plus the intermediate files as
written by `_scrape_date_range` before the merge. -/
structure ScrapeOut where
  world : World
  midFiles : DiskFiles
deriving DecidableEq

/-- `scrape`: run `_scrape_date_range` (which already overwrites the
five files with the freshly fetched range), then either merge into the
loaded tables by concatenation plus full-row deduplication or adopt the
new tables outright, and finish with `save_data`. -/
def scrape (w : World) (up : Upstream) (currentYear start_year : Int)
    (end_year : Option Int) : Option ScrapeOut :=
  (_scrape_date_range up currentYear start_year end_year).map fun sr =>
    let newT := sr.tables
    let merged : StoreState :=
      match w.state.races, w.state.circuits, w.state.results,
            w.state.drivers, w.state.constructors with
      | some ra, some ci, some re, some dr, some co =>
        ⟨some (drop_duplicates (ra ++ newT.races)),
         some (drop_duplicates (ci ++ newT.circuits)),
         some (drop_duplicates (re ++ newT.results)),
         some (drop_duplicates (dr ++ newT.drivers)),
         some (drop_duplicates (co ++ newT.constructors))⟩
      | _, _, _, _, _ =>
        ⟨some newT.races, some newT.circuits, some newT.results,
         some newT.drivers, some newT.constructors⟩
    { world := (save_data ⟨merged, sr.files⟩).1, midFiles := sr.files }

inductive UpdateStatus
  | noDataLoaded
  | requestFailed
  | upToDate (raceId : Nat)
  | scraped
deriving DecidableEq

/-- `update`: requires loaded tables; `latest` is the decoded payload
of the single most-recent race (`none` for a non-ok response).  If its
derived `RaceID` is already present in the `Race` table the store is
untouched; otherwise re-scrape from the maximum loaded `Season` through
the current year.  The overall `none` models the exceptions the code
can raise (a missing `round` key in the payload, or `Series.max` of an
empty column reaching `range`). -/
def update (w : World) (latest : Option RaceData) (up : Upstream)
    (currentYear : Int) : Option (World × UpdateStatus) :=
  if _all_data_loaded w.state then
    match latest with
    | none => some (w, UpdateStatus.requestFailed)
    | some d =>
      match _get_race_id d, w.state.races with
      | some rid, some ra =>
        if rid ∈ ra.map RaceRow.RaceID then
          some (w, UpdateStatus.upToDate rid)
        else
          match colMax (ra.map RaceRow.Season) with
          | some mx =>
            (scrape w up currentYear mx none).map fun so =>
              (so.world, UpdateStatus.scraped)
          | none => none
      | none, _ => none
      | some _, none => none
  else some (w, UpdateStatus.noDataLoaded)

/-! ### Initialization -/

/-- The storage directory as seen by `__init__`. -/
structure Disk where
  dirExists : Bool
  files : DiskFiles
deriving DecidableEq

/-- `FormulaOne.__init__`: if the directory exists and all five files
are present, load them (`read_csv` with `index_col=0` restores the
row-index column); if any file is missing, leave every table unset; if
the directory is missing, create it and leave every table unset. -/
def initStore (d : Disk) : StoreState × Disk :=
  if d.dirExists then
    match d.files.races, d.files.circuits, d.files.results,
          d.files.drivers, d.files.constructors with
    | some ra, some ci, some re, some dr, some co =>
      (⟨some (ra.map Prod.snd), some (ci.map Prod.snd),
        some (re.map Prod.snd), some (dr.map Prod.snd),
        some (co.map Prod.snd)⟩, d)
    | _, _, _, _, _ => (emptyState, d)
  else (emptyState, ⟨true, d.files⟩)

/-! ### Concrete example rows and payloads (used by witnesses and
counterexamples) -/

def exRaceRow1 : RaceRow := ⟨1, 2021, 1, none, none, "", none⟩

def exRaceRow2 : RaceRow := ⟨2, 2021, 2, none, none, "", none⟩

def exCircuitRow : CircuitRow := ⟨none, none, none, none, none, none, none⟩

def exResultRow : ResultRow := ⟨1, 1, 0, none, none, 0, 0, none, none, none, none⟩

def exDriverRow : DriverRow := ⟨none, none, none, none, none, none, none⟩

def exConstructorRow : ConstructorRow := ⟨none, none, none, none⟩

def exCircuitData : CircuitData := ⟨none, none, ⟨none, none, none, none⟩, none⟩

def exDriverData : DriverData := ⟨none, none, none, none, none, none, none⟩

def exConstructorData : ConstructorData := ⟨none, none, none, none⟩

/-- A result record with all optional scalar fields missing. -/
def exResultNoFields : ResultData :=
  ⟨none, none, none, none, none, none, none, none, exDriverData, exConstructorData⟩

/-- A race payload that lacks the `round` key. -/
def exPayloadNoRound : RaceData :=
  ⟨some (decDigits 2021), none, none, none, exCircuitData, none, none, [exResultNoFields]⟩

/-- A race payload with `round` present but `season` missing. -/
def exPayloadRound1 : RaceData :=
  ⟨none, some (decDigits 1), none, none, exCircuitData, none, none, [exResultNoFields]⟩

/-- A minimal well-formed payload for season 2021, given its round. -/
def exPayload2021 (r : Nat) : RaceData :=
  ⟨some (decDigits 2021), some (decDigits r), none, none, exCircuitData, none, none, []⟩

/-- The `Position` column value extracted from a result record. -/
def positionVal (r : ResultData) : Int := intField r.position (-1)

/-- Keys accumulated after one pass of `dedupGo`. -/
def afterSeen {α β : Type} [DecidableEq β] (key : α → β) (seen : List β)
    (l : List α) : List β :=
  l.foldl (fun s x => if key x ∈ s then s else key x :: s) seen

/-- The value `_get_race_id` produces when the `round` key is present. -/
def raceIdVal (d : RaceData) : Nat :=
  digitsVal (d.season.getD [0] ++
    (if (d.round.getD []).length = 2 then d.round.getD [] else 0 :: d.round.getD []))

/-! ### Lemmas: decimal digits -/

theorem decDigitsAux_zero : ∀ f, decDigitsAux f 0 = []
  | 0 => rfl
  | _ + 1 => rfl

theorem decDigitsAux_step (f n : Nat) :
    decDigitsAux (f + 1) (n + 1) =
      decDigitsAux f ((n + 1) / 10) ++ [(n + 1) % 10] := rfl

theorem decDigitsAux_small {f r : Nat} (h1 : 1 ≤ r) (h2 : r ≤ 9) (hf : 1 ≤ f) :
    decDigitsAux f r = [r] := by
  obtain ⟨g, rfl⟩ : ∃ g, f = g + 1 := ⟨f - 1, by omega⟩
  obtain ⟨m, rfl⟩ : ∃ m, r = m + 1 := ⟨r - 1, by omega⟩
  rw [decDigitsAux_step]
  have h10 : (m + 1) / 10 = 0 := by omega
  have hm : (m + 1) % 10 = m + 1 := by omega
  rw [h10, hm, decDigitsAux_zero, List.nil_append]

theorem decDigits_eq_single {r : Nat} (h1 : 1 ≤ r) (h2 : r ≤ 9) :
    decDigits r = [r] := by
  unfold decDigits
  rw [if_neg (by omega)]
  exact decDigitsAux_small h1 h2 (by omega)

theorem decDigits_eq_pair {r : Nat} (h1 : 10 ≤ r) (h2 : r ≤ 99) :
    decDigits r = [r / 10, r % 10] := by
  unfold decDigits
  rw [if_neg (by omega)]
  obtain ⟨m, rfl⟩ : ∃ m, r = m + 1 := ⟨r - 1, by omega⟩
  rw [decDigitsAux_step]
  rw [decDigitsAux_small (by omega) (by omega) (by omega)]
  rfl

theorem foldl_digits (b : List Nat) : ∀ acc : Nat,
    List.foldl (fun a d => a * 10 + d) acc b =
      acc * 10 ^ b.length + List.foldl (fun a d => a * 10 + d) 0 b := by
  induction b with
  | nil => intro acc; simp
  | cons x xs ih =>
    intro acc
    simp only [List.foldl_cons, List.length_cons]
    rw [ih (acc * 10 + x), ih (0 * 10 + x)]
    ring

theorem digitsVal_append (a b : List Nat) :
    digitsVal (a ++ b) = digitsVal a * 10 ^ b.length + digitsVal b := by
  unfold digitsVal
  rw [List.foldl_append]
  exact foldl_digits b _

/-! ### Lemmas: deduplication -/

theorem dedupGo_sublist {α β : Type} [DecidableEq β] (key : α → β) :
    ∀ (seen : List β) (l : List α), (dedupGo key seen l).Sublist l
  | _, [] => by simp [dedupGo]
  | seen, x :: xs => by
    by_cases h : key x ∈ seen
    · simpa [dedupGo, h] using (dedupGo_sublist key seen xs).cons x
    · simpa [dedupGo, h] using (dedupGo_sublist key (key x :: seen) xs).cons₂ x

theorem mem_dedupGo_id {α : Type} [DecidableEq α] :
    ∀ (seen l : List α) (a : α), a ∈ dedupGo id seen l ↔ a ∈ l ∧ a ∉ seen
  | seen, [], a => by simp [dedupGo]
  | seen, x :: xs, a => by
    by_cases h : x ∈ seen
    · rw [show dedupGo id seen (x :: xs) = dedupGo id seen xs by simp [dedupGo, h]]
      rw [mem_dedupGo_id seen xs a]
      constructor
      · rintro ⟨ha, hs⟩; exact ⟨List.mem_cons_of_mem _ ha, hs⟩
      · rintro ⟨ha, hs⟩
        rcases List.mem_cons.mp ha with rfl | ha
        · exact absurd h hs
        · exact ⟨ha, hs⟩
    · rw [show dedupGo id seen (x :: xs) = x :: dedupGo id (x :: seen) xs by
        simp [dedupGo, h]]
      by_cases hax : a = x
      · subst hax
        simp [h]
      · simp only [List.mem_cons, hax, false_or]
        rw [mem_dedupGo_id (x :: seen) xs a]
        constructor
        · rintro ⟨ha, hs⟩
          exact ⟨ha, fun hm => hs (List.mem_cons_of_mem _ hm)⟩
        · rintro ⟨ha, hs⟩
          refine ⟨ha, fun hm => ?_⟩
          rcases List.mem_cons.mp hm with rfl | hm
          · exact hax rfl
          · exact hs hm

theorem dedupGo_key_nodup {α β : Type} [DecidableEq β] (key : α → β) :
    ∀ (seen : List β) (l : List α),
      ((dedupGo key seen l).map key).Nodup ∧
        ∀ b ∈ (dedupGo key seen l).map key, b ∉ seen
  | seen, [] => by simp [dedupGo]
  | seen, x :: xs => by
    by_cases h : key x ∈ seen
    · simpa [dedupGo, h] using dedupGo_key_nodup key seen xs
    · have ih := dedupGo_key_nodup key (key x :: seen) xs
      rw [show dedupGo key seen (x :: xs) = x :: dedupGo key (key x :: seen) xs by
        simp [dedupGo, h]]
      simp only [List.map_cons, List.nodup_cons]
      refine ⟨⟨fun hm => ?_, ih.1⟩, ?_⟩
      · exact (ih.2 _ hm) (List.mem_cons_self _ _)
      · intro b hb
        rcases List.mem_cons.mp hb with rfl | hb
        · exact h
        · exact fun hbs => (ih.2 b hb) (List.mem_cons_of_mem _ hbs)

theorem dedupGo_eq_self {α β : Type} [DecidableEq β] (key : α → β) :
    ∀ (seen : List β) (l : List α), (l.map key).Nodup →
      (∀ a ∈ l, key a ∉ seen) → dedupGo key seen l = l
  | _, [], _, _ => by simp [dedupGo]
  | seen, x :: xs, hn, hs => by
    have hx : key x ∉ seen := hs x (List.mem_cons_self _ _)
    rw [show dedupGo key seen (x :: xs) = x :: dedupGo key (key x :: seen) xs by
      simp [dedupGo, hx]]
    have hn' := hn
    simp only [List.map_cons, List.nodup_cons] at hn'
    congr 1
    refine dedupGo_eq_self key (key x :: seen) xs hn'.2 ?_
    intro a ha
    intro hm
    rcases List.mem_cons.mp hm with he | hm
    · exact hn'.1 (he ▸ List.mem_map_of_mem key ha)
    · exact hs a (List.mem_cons_of_mem _ ha) hm

theorem dedupGo_append {α β : Type} [DecidableEq β] (key : α → β) :
    ∀ (seen : List β) (l1 l2 : List α),
      dedupGo key seen (l1 ++ l2) =
        dedupGo key seen l1 ++ dedupGo key (afterSeen key seen l1) l2
  | seen, [], l2 => by simp [dedupGo, afterSeen]
  | seen, x :: xs, l2 => by
    by_cases h : key x ∈ seen
    · simp only [List.cons_append, dedupGo, afterSeen, List.foldl_cons, if_pos h]
      exact dedupGo_append key seen xs l2
    · simp only [List.cons_append, dedupGo, afterSeen, List.foldl_cons, if_neg h]
      congr 1
      exact dedupGo_append key (key x :: seen) xs l2

theorem mem_afterSeen {α β : Type} [DecidableEq β] (key : α → β) :
    ∀ (seen : List β) (l : List α) (b : β),
      b ∈ afterSeen key seen l ↔ b ∈ seen ∨ b ∈ l.map key
  | seen, [], b => by simp [afterSeen]
  | seen, x :: xs, b => by
    by_cases h : key x ∈ seen
    · rw [show afterSeen key seen (x :: xs) = afterSeen key seen xs by
        simp [afterSeen, h]]
      rw [mem_afterSeen key seen xs b]
      simp only [List.map_cons, List.mem_cons]
      constructor
      · rintro (hb | hb)
        · exact Or.inl hb
        · exact Or.inr (Or.inr hb)
      · rintro (hb | rfl | hb)
        · exact Or.inl hb
        · exact Or.inl h
        · exact Or.inr hb
    · rw [show afterSeen key seen (x :: xs) = afterSeen key (key x :: seen) xs by
        simp [afterSeen, h]]
      rw [mem_afterSeen key (key x :: seen) xs b]
      simp only [List.mem_cons, List.map_cons]
      tauto

theorem dedupGo_eq_nil {α β : Type} [DecidableEq β] (key : α → β) :
    ∀ (seen : List β) (l : List α), (∀ a ∈ l, key a ∈ seen) →
      dedupGo key seen l = []
  | _, [], _ => rfl
  | seen, x :: xs, h => by
    have hx : key x ∈ seen := h x (List.mem_cons_self _ _)
    rw [show dedupGo key seen (x :: xs) = dedupGo key seen xs by simp [dedupGo, hx]]
    exact dedupGo_eq_nil key seen xs fun a ha => h a (List.mem_cons_of_mem _ ha)

theorem drop_duplicates_append_self {α : Type} [DecidableEq α] (l : List α) :
    drop_duplicates (l ++ l) = drop_duplicates l := by
  unfold drop_duplicates
  rw [dedupGo_append]
  rw [dedupGo_eq_nil id _ l fun a ha => (mem_afterSeen id [] l (id a)).mpr
    (Or.inr (by simpa using ha))]
  simp

theorem map_dedupGo {α β γ : Type} [DecidableEq β] (key : α → β) (key2 : γ → β)
    (f : α → γ) (hk : ∀ a, key a = key2 (f a)) :
    ∀ (seen : List β) (l : List α),
      (dedupGo key seen l).map f = dedupGo key2 seen (l.map f)
  | _, [] => by simp [dedupGo]
  | seen, x :: xs => by
    by_cases h : key x ∈ seen
    · have h2 : key2 (f x) ∈ seen := hk x ▸ h
      simp only [dedupGo, List.map_cons, if_pos h, if_pos h2]
      exact map_dedupGo key key2 f hk seen xs
    · have h2 : key2 (f x) ∉ seen := hk x ▸ h
      simp only [dedupGo, List.map_cons, if_neg h, if_neg h2]
      congr 1
      rw [hk x]
      exact map_dedupGo key key2 f hk (key2 (f x) :: seen) xs

theorem indexFrom_map_snd {α : Type} : ∀ (i : Nat) (l : List α),
    (indexFrom i l).map Prod.snd = l
  | _, [] => rfl
  | i, x :: xs => by
    simp only [indexFrom, List.map_cons]
    rw [indexFrom_map_snd (i + 1) xs]

theorem dropDupRows_map_snd {α : Type} [DecidableEq α] (l : List α) :
    (dropDupRows (reset_index l)).map Prod.snd = drop_duplicates l := by
  unfold dropDupRows drop_duplicates reset_index
  rw [map_dedupGo Prod.snd id Prod.snd fun _ => rfl]
  rw [indexFrom_map_snd]

theorem mem_drop_duplicates {α : Type} [DecidableEq α] {l : List α} {a : α} :
    a ∈ drop_duplicates l ↔ a ∈ l := by
  unfold drop_duplicates
  rw [mem_dedupGo_id]
  simp

theorem nodup_drop_duplicates {α : Type} [DecidableEq α] (l : List α) :
    (drop_duplicates l).Nodup := by
  have h := (dedupGo_key_nodup id [] l).1
  simpa using h

theorem drop_duplicates_eq_self {α : Type} [DecidableEq α] {l : List α}
    (h : l.Nodup) : drop_duplicates l = l := by
  unfold drop_duplicates
  exact dedupGo_eq_self id [] l (by simpa using h) (by simp)

theorem dropDupRows_eq_self {α : Type} [DecidableEq α] {l : List (Nat × α)}
    (h : (l.map Prod.snd).Nodup) : dropDupRows l = l := by
  unfold dropDupRows
  exact dedupGo_eq_self Prod.snd [] l h (by simp)

theorem sorted_drop_duplicates {α : Type} [DecidableEq α] {r : α → α → Prop}
    {l : List α} (h : l.Sorted r) : (drop_duplicates l).Sorted r :=
  List.Pairwise.sublist (dedupGo_sublist id [] l) h

/-! ### Lemmas: RaceID derivation -/

theorem _get_race_id_eq_some {d : RaceData} (h : d.round.isSome) :
    _get_race_id d = some (raceIdVal d) := by
  obtain ⟨rnd, hr⟩ := Option.isSome_iff_exists.mp h
  simp [_get_race_id, raceIdVal, hr]

theorem raceIdVal_canonical {d : RaceData} {sd : List Nat} {r : Nat}
    (h1 : 1 ≤ r) (h2 : r ≤ 99) (hs : d.season = some sd)
    (hr : d.round = some (decDigits r)) :
    raceIdVal d = digitsVal sd * 100 + r := by
  unfold raceIdVal
  rw [hs, hr]
  simp only [Option.getD_some]
  rcases le_or_lt 10 r with h10 | h10
  · rw [decDigits_eq_pair h10 h2]
    have hlen : ([r / 10, r % 10] : List Nat).length = 2 := rfl
    rw [if_pos hlen]
    rw [digitsVal_append]
    have hv : digitsVal [r / 10, r % 10] = r := by
      simp only [digitsVal, List.foldl_cons, List.foldl_nil]
      omega
    rw [hv]
    norm_num
  · rw [decDigits_eq_single h1 (by omega)]
    have hlen : ¬ (([r] : List Nat).length = 2) := by simp
    rw [if_neg hlen]
    rw [digitsVal_append]
    have hv : digitsVal [0, r] = r := by
      simp only [digitsVal, List.foldl_cons, List.foldl_nil]
      omega
    rw [hv]
    norm_num

theorem _get_race_id_canonical {d : RaceData} {sd : List Nat} {r : Nat}
    (h1 : 1 ≤ r) (h2 : r ≤ 99) (hs : d.season = some sd)
    (hr : d.round = some (decDigits r)) :
    _get_race_id d = some (digitsVal sd * 100 + r) := by
  rw [_get_race_id_eq_some (by simp [hr])]
  rw [raceIdVal_canonical h1 h2 hs hr]

/-! ### Lemmas: collection -/

theorem _collect_data_from_all_some (qs : List RaceData)
    (h : ∀ q ∈ qs, q.round.isSome) :
    _collect_data_from (qs.map some) = some
      { races := qs.map fun q => raceRowOf q (raceIdVal q)
        circuits := qs.map _get_circuit
        results := (qs.map fun q => q.results.map (resultRowOf (raceIdVal q))).flatten
        drivers := (qs.map fun q => q.results.map driverRowOf).flatten
        constructors := (qs.map fun q => q.results.map constructorRowOf).flatten } := by
  induction qs with
  | nil => rfl
  | cons q qs ih =>
    have hq : q.round.isSome := h q (List.mem_cons_self _ _)
    have hrest := ih fun p hp => h p (List.mem_cons_of_mem _ hp)
    have hrace : _get_race q = some (raceRowOf q (raceIdVal q)) := by
      simp [_get_race, _get_race_id_eq_some hq]
    have hrdc : _get_results_drivers_constructors q =
        some (q.results.map (resultRowOf (raceIdVal q)),
              q.results.map driverRowOf, q.results.map constructorRowOf) := by
      simp [_get_results_drivers_constructors, _get_race_id_eq_some hq]
    simp only [List.map_cons, _collect_data_from, hrace, hrdc, hrest,
      List.flatten_cons]

theorem scrapeYears_single (up : Upstream) (y : Int) (t : RawTables)
    (h : _collect_data_from (up y) = some t) :
    scrapeYears up [y] = some t := by
  obtain ⟨a, b, c, d, e⟩ := t
  simp [scrapeYears, h, emptyTables]

theorem intRange_self (y : Int) : intRange y y = [y] := by
  unfold intRange
  have h1 : y + 1 - y = 1 := by ring
  rw [h1]
  show (List.range 1).map (fun i => y + (i : Int)) = [y]
  simp [List.range_succ]

theorem foldl_max_const : ∀ (l : List Int) (c : Int), (∀ x ∈ l, x = c) →
    l.foldl max c = c
  | [], _, _ => rfl
  | x :: xs, c, h => by
    have hx : x = c := h x (List.mem_cons_self _ _)
    simp only [List.foldl_cons, hx, max_self]
    exact foldl_max_const xs c fun a ha => h a (List.mem_cons_of_mem _ ha)

theorem colMax_const {l : List Int} {c : Int} (hne : l ≠ [])
    (h : ∀ x ∈ l, x = c) : colMax l = some c := by
  cases l with
  | nil => exact absurd rfl hne
  | cons x xs =>
    have hx : x = c := h x (List.mem_cons_self _ _)
    simp only [colMax, hx]
    rw [foldl_max_const xs c fun a ha => h a (List.mem_cons_of_mem _ ha)]

/-! ### Lemmas: sorted lists with injective keys -/

theorem sorted_perm_keyInj_eq {α κ : Type} [LinearOrder κ] (k : α → κ) :
    ∀ {l1 l2 : List α}, l1.Perm l2 → l1.Sorted (keyLe k) → l2.Sorted (keyLe k) →
      (∀ x ∈ l1, ∀ y ∈ l1, k x = k y → x = y) → l1 = l2 := by
  intro l1
  induction l1 with
  | nil =>
    intro l2 hp _ _ _
    exact hp.nil_eq
  | cons x xs ih =>
    intro l2 hp hs1 hs2 hinj
    cases l2 with
    | nil => exact absurd hp.symm (by simp)
    | cons y ys =>
      have hxy : x = y := by
        have hx2 : x ∈ y :: ys := hp.subset (List.mem_cons_self _ _)
        have hy1 : y ∈ x :: xs := hp.symm.subset (List.mem_cons_self _ _)
        rcases List.mem_cons.mp hx2 with h1 | h1
        · exact h1
        · rcases List.mem_cons.mp hy1 with h2 | h2
          · exact h2.symm
          · have k1 : k x ≤ k y := List.rel_of_sorted_cons hs1 y h2
            have k2 : k y ≤ k x := List.rel_of_sorted_cons hs2 x h1
            exact hinj x (List.mem_cons_self _ _) y (List.mem_cons_of_mem _ h2)
              (le_antisymm k1 k2)
      subst hxy
      have hp2 : xs.Perm ys := hp.cons_inv
      have heq : xs = ys := ih hp2 hs1.of_cons hs2.of_cons
        fun a ha b hb hab =>
          hinj a (List.mem_cons_of_mem _ ha) b (List.mem_cons_of_mem _ hb) hab
      rw [heq]

theorem reset_index_map_snd {α : Type} (l : List α) :
    (reset_index l).map Prod.snd = l :=
  indexFrom_map_snd 0 l

/-- One `save_data` table pipeline applied to its own output is a fixed
point, provided the table held no duplicate rows. -/
theorem saveTable_idem {α κ : Type} [DecidableEq α] [LinearOrder κ] (k : α → κ)
    (t : List α) (h : t.Nodup) :
    dropDupRows (reset_index (List.insertionSort (keyLe k)
      ((dropDupRows (reset_index (List.insertionSort (keyLe k) t))).map Prod.snd))) =
    dropDupRows (reset_index (List.insertionSort (keyLe k) t)) := by
  have hsn : (List.insertionSort (keyLe k) t).Nodup :=
    ((List.perm_insertionSort (keyLe k) t).nodup_iff).mpr h
  have hfix : dropDupRows (reset_index (List.insertionSort (keyLe k) t)) =
      reset_index (List.insertionSort (keyLe k) t) := by
    apply dropDupRows_eq_self
    rw [reset_index_map_snd]
    exact hsn
  have hmap : (dropDupRows (reset_index (List.insertionSort (keyLe k) t))).map
      Prod.snd = List.insertionSort (keyLe k) t := by
    rw [hfix, reset_index_map_snd]
  rw [hmap, List.Sorted.insertionSort_eq (List.sorted_insertionSort _ _)]

/-- The incremental merge (re-sort and re-deduplicate the concatenation
of the persisted table with a superset batch) coincides with the full
rebuild from the batch alone, provided the sort key is injective on the
batch rows. -/
theorem merge_rebuild {α κ : Type} [DecidableEq α] [LinearOrder κ] (k : α → κ)
    (A B : List α) (hsub : ∀ a ∈ A, a ∈ B)
    (hinj : ∀ x ∈ B, ∀ y ∈ B, k x = k y → x = y) :
    drop_duplicates (List.insertionSort (keyLe k)
      (drop_duplicates (drop_duplicates (List.insertionSort (keyLe k) A) ++ B))) =
    drop_duplicates (List.insertionSort (keyLe k) B) := by
  set S1 := drop_duplicates (List.insertionSort (keyLe k) A) with hS1
  set X := drop_duplicates (S1 ++ B) with hX
  have memS1 : ∀ a, a ∈ S1 ↔ a ∈ A := by
    intro a
    rw [hS1, mem_drop_duplicates, List.mem_insertionSort]
  have memX : ∀ a, a ∈ X ↔ a ∈ B := by
    intro a
    rw [hX, mem_drop_duplicates, List.mem_append, memS1]
    constructor
    · rintro (h | h)
      · exact hsub a h
      · exact h
    · exact Or.inr
  have nodupX : X.Nodup := nodup_drop_duplicates _
  have nodupSX : (List.insertionSort (keyLe k) X).Nodup :=
    ((List.perm_insertionSort (keyLe k) X).nodup_iff).mpr nodupX
  rw [drop_duplicates_eq_self nodupSX]
  apply sorted_perm_keyInj_eq k
  · refine (List.perm_ext_iff_of_nodup nodupSX (nodup_drop_duplicates _)).mpr ?_
    intro a
    rw [List.mem_insertionSort, memX a, mem_drop_duplicates,
      List.mem_insertionSort]
  · exact List.sorted_insertionSort _ _
  · exact sorted_drop_duplicates (List.sorted_insertionSort _ _)
  · intro x hx y hy hk2
    have hxB : x ∈ B := (memX x).mp (by
      rw [List.mem_insertionSort] at hx
      exact hx)
    have hyB : y ∈ B := (memX y).mp (by
      rw [List.mem_insertionSort] at hy
      exact hy)
    exact hinj x hxB y hyB hk2

/-! ### Lemmas: row projections -/

theorem raceRowOf_RaceID (d : RaceData) (n : Nat) :
    (raceRowOf d n).RaceID = n := rfl

theorem resultRowOf_RaceID (n : Nat) (r : ResultData) :
    (resultRowOf n r).RaceID = n := rfl

theorem resultRowOf_Position (n : Nat) (r : ResultData) :
    (resultRowOf n r).Position = positionVal r := rfl

theorem raceRowOf_Season (d : RaceData) (n : Nat) :
    (raceRowOf d n).Season = intField d.season (-1) := rfl

/-! ### Lemmas: the canonical single-season scenario -/

theorem raceIdVal_at (qs : List RaceData) (hlen : qs.length ≤ 99)
    (hseason : ∀ q ∈ qs, q.season = some (decDigits 2021))
    (hround : ∀ i (hi : i < qs.length),
      (qs.get ⟨i, hi⟩).round = some (decDigits (i + 1)))
    (i : Nat) (hi : i < qs.length) :
    raceIdVal (qs.get ⟨i, hi⟩) = 202100 + (i + 1) := by
  have hs := hseason _ (qs.get_mem i hi)
  have hr := hround i hi
  rw [raceIdVal_canonical (by omega) (by omega) hs hr]
  have hv : digitsVal (decDigits 2021) = 2021 := by decide
  rw [hv]

theorem races_key_inj (qs : List RaceData) (hlen : qs.length ≤ 99)
    (hseason : ∀ q ∈ qs, q.season = some (decDigits 2021))
    (hround : ∀ i (hi : i < qs.length),
      (qs.get ⟨i, hi⟩).round = some (decDigits (i + 1))) :
    ∀ x ∈ qs.map fun q => raceRowOf q (raceIdVal q),
      ∀ y ∈ qs.map fun q => raceRowOf q (raceIdVal q),
        RaceRow.RaceID x = RaceRow.RaceID y → x = y := by
  intro x hx y hy hxy
  obtain ⟨qx, hqx, hx2⟩ := List.mem_map.mp hx
  obtain ⟨qy, hqy, hy2⟩ := List.mem_map.mp hy
  obtain ⟨⟨i, hi⟩, hgi⟩ := List.mem_iff_get.mp hqx
  obtain ⟨⟨j, hj⟩, hgj⟩ := List.mem_iff_get.mp hqy
  have hxid : x.RaceID = 202100 + (i + 1) := by
    rw [← hx2, raceRowOf_RaceID, ← hgi]
    exact raceIdVal_at qs hlen hseason hround i hi
  have hyid : y.RaceID = 202100 + (j + 1) := by
    rw [← hy2, raceRowOf_RaceID, ← hgj]
    exact raceIdVal_at qs hlen hseason hround j hj
  have hij : i = j := by
    rw [hxid, hyid] at hxy
    omega
  have hq : qx = qy := by
    subst hij
    rw [← hgi, ← hgj]
  rw [← hx2, ← hy2, hq]

theorem results_key_inj (qs : List RaceData) (hlen : qs.length ≤ 99)
    (hseason : ∀ q ∈ qs, q.season = some (decDigits 2021))
    (hround : ∀ i (hi : i < qs.length),
      (qs.get ⟨i, hi⟩).round = some (decDigits (i + 1)))
    (hpos : ∀ q ∈ qs, (q.results.map positionVal).Nodup) :
    ∀ x ∈ (qs.map fun q => q.results.map (resultRowOf (raceIdVal q))).flatten,
      ∀ y ∈ (qs.map fun q => q.results.map (resultRowOf (raceIdVal q))).flatten,
        resKey x = resKey y → x = y := by
  intro x hx y hy hxy
  obtain ⟨lx, hlx, hx2⟩ := List.mem_flatten.mp hx
  obtain ⟨ly, hly, hy2⟩ := List.mem_flatten.mp hy
  obtain ⟨qx, hqx, hlx2⟩ := List.mem_map.mp hlx
  obtain ⟨qy, hqy, hly2⟩ := List.mem_map.mp hly
  subst hlx2 hly2
  obtain ⟨rx, hrx, hx3⟩ := List.mem_map.mp hx2
  obtain ⟨ry, hry, hy3⟩ := List.mem_map.mp hy2
  obtain ⟨⟨i, hi⟩, hgi⟩ := List.mem_iff_get.mp hqx
  obtain ⟨⟨j, hj⟩, hgj⟩ := List.mem_iff_get.mp hqy
  have h2 : (x.RaceID, x.Position) = (y.RaceID, y.Position) :=
    toLex.injective hxy
  have hpair1 : x.RaceID = y.RaceID := congrArg Prod.fst h2
  have hpair2 : x.Position = y.Position := congrArg Prod.snd h2
  have hxid : x.RaceID = 202100 + (i + 1) := by
    rw [← hx3, resultRowOf_RaceID, ← hgi]
    exact raceIdVal_at qs hlen hseason hround i hi
  have hyid : y.RaceID = 202100 + (j + 1) := by
    rw [← hy3, resultRowOf_RaceID, ← hgj]
    exact raceIdVal_at qs hlen hseason hround j hj
  have hij : i = j := by
    rw [hxid, hyid] at hpair1
    omega
  have hq : qx = qy := by
    subst hij
    rw [← hgi, ← hgj]
  subst hq
  have hrxy : rx = ry := by
    refine List.inj_on_of_nodup_map (hpos qx hqx) hrx hry ?_
    have e1 : positionVal rx = x.Position := by rw [← hx3, resultRowOf_Position]
    have e2 : positionVal ry = y.Position := by rw [← hy3, resultRowOf_Position]
    rw [e1, e2, hpair2]
  rw [← hx3, ← hy3, hrxy]

/-! ### Lemmas: evaluation of `scrape` and `update` -/

theorem scrape_eval_fresh (w : World) (up : Upstream) (cy start : Int)
    (endOpt : Option Int) (hrange : intRange start (endOpt.getD cy) = [start])
    (t : RawTables) (hcol : _collect_data_from (up start) = some t)
    (hw : w.state.races = none) :
    scrape w up cy start endOpt = some
      { world :=
        { state :=
          ⟨some (drop_duplicates (sortRaces t.races)),
           some (drop_duplicates (sortCircuits (drop_duplicates t.circuits))),
           some (drop_duplicates (sortResults t.results)),
           some (drop_duplicates (sortDrivers (drop_duplicates t.drivers))),
           some (drop_duplicates (sortConstructors (drop_duplicates t.constructors)))⟩
          files :=
          ⟨some (dropDupRows (reset_index (sortRaces t.races))),
           some (dropDupRows (reset_index (sortCircuits (drop_duplicates t.circuits)))),
           some (dropDupRows (reset_index (sortResults t.results))),
           some (dropDupRows (reset_index (sortDrivers (drop_duplicates t.drivers)))),
           some (dropDupRows (reset_index (sortConstructors (drop_duplicates t.constructors))))⟩ }
        midFiles :=
          ⟨some (reset_index t.races),
           some (dropDupRows (reset_index t.circuits)),
           some (reset_index t.results),
           some (dropDupRows (reset_index t.drivers)),
           some (dropDupRows (reset_index t.constructors))⟩ } := by
  unfold scrape _scrape_date_range
  rw [hrange, scrapeYears_single up start t hcol, hw]
  simp [save_data, dropDupRows_map_snd]

theorem scrape_eval_merge (w : World) (up : Upstream) (cy start : Int)
    (endOpt : Option Int) (hrange : intRange start (endOpt.getD cy) = [start])
    (t : RawTables) (hcol : _collect_data_from (up start) = some t)
    (ra : List RaceRow) (ci : List CircuitRow) (re : List ResultRow)
    (dr : List DriverRow) (co : List ConstructorRow)
    (hra : w.state.races = some ra) (hci : w.state.circuits = some ci)
    (hre : w.state.results = some re) (hdr : w.state.drivers = some dr)
    (hco : w.state.constructors = some co) :
    scrape w up cy start endOpt = some
      { world :=
        { state :=
          ⟨some (drop_duplicates (sortRaces (drop_duplicates (ra ++ t.races)))),
           some (drop_duplicates (sortCircuits
             (drop_duplicates (ci ++ drop_duplicates t.circuits)))),
           some (drop_duplicates (sortResults (drop_duplicates (re ++ t.results)))),
           some (drop_duplicates (sortDrivers
             (drop_duplicates (dr ++ drop_duplicates t.drivers)))),
           some (drop_duplicates (sortConstructors
             (drop_duplicates (co ++ drop_duplicates t.constructors))))⟩
          files :=
          ⟨some (dropDupRows (reset_index (sortRaces
             (drop_duplicates (ra ++ t.races))))),
           some (dropDupRows (reset_index (sortCircuits
             (drop_duplicates (ci ++ drop_duplicates t.circuits))))),
           some (dropDupRows (reset_index (sortResults
             (drop_duplicates (re ++ t.results))))),
           some (dropDupRows (reset_index (sortDrivers
             (drop_duplicates (dr ++ drop_duplicates t.drivers))))),
           some (dropDupRows (reset_index (sortConstructors
             (drop_duplicates (co ++ drop_duplicates t.constructors)))))⟩ }
        midFiles :=
          ⟨some (reset_index t.races),
           some (dropDupRows (reset_index t.circuits)),
           some (reset_index t.results),
           some (dropDupRows (reset_index t.drivers)),
           some (dropDupRows (reset_index t.constructors))⟩ } := by
  unfold scrape _scrape_date_range
  rw [hrange, scrapeYears_single up start t hcol, hra, hci, hre, hdr, hco]
  simp [save_data, dropDupRows_map_snd]

theorem update_not_current_eval (w : World) (d : RaceData) (up : Upstream)
    (cy : Int) (ra : List RaceRow) (rid : Nat) (mx : Int)
    (hra : w.state.races = some ra)
    (hci : w.state.circuits.isSome = true) (hre : w.state.results.isSome = true)
    (hdr : w.state.drivers.isSome = true) (hco : w.state.constructors.isSome = true)
    (hrid : _get_race_id d = some rid)
    (hnot : rid ∉ ra.map RaceRow.RaceID)
    (hmax : colMax (ra.map RaceRow.Season) = some mx) :
    update w (some d) up cy =
      (scrape w up cy mx none).map fun so => (so.world, UpdateStatus.scraped) := by
  unfold update
  rw [if_pos (by simp [_all_data_loaded, hra, hci, hre, hdr, hco])]
  simp only [hrid, hra, hmax, if_neg hnot]

/-! ### Claim theorems -/

/-- C1: for every race payload whose `season` field is a decimal-digit
string and whose `round` field is the canonical decimal string of a
round in `[1, 99]`, `_get_race_id` returns `season * 100 + round`; in
particular the round is zero-padded to two digits, so season 2021 with
round 3 yields 202103 and with round 13 yields 202113. -/
theorem C1_race_id_derivation (d : RaceData) (sd : List Nat) (r : Nat)
    (h1 : 1 ≤ r) (h2 : r ≤ 99) (hs : d.season = some sd)
    (hr : d.round = some (decDigits r)) :
    _get_race_id d = some (digitsVal sd * 100 + r) :=
  _get_race_id_canonical h1 h2 hs hr

/-- Witness for C1: the concrete payloads for season 2021, rounds 3 and
13, give RaceIDs 202103 and 202113. -/
theorem C1_race_id_derivation_witness :
    _get_race_id (exPayload2021 3) = some 202103 ∧
    _get_race_id (exPayload2021 13) = some 202113 := by
  constructor
  · have h := C1_race_id_derivation (exPayload2021 3) (decDigits 2021) 3
      (by decide) (by decide) rfl rfl
    rw [h]
    decide
  · have h := C1_race_id_derivation (exPayload2021 13) (decDigits 2021) 13
      (by decide) (by decide) rfl rfl
    rw [h]
    decide

/-- C9: the RaceID derivation is total exactly on payloads whose
`round` key is present: `_get_race_id` succeeds iff `round` is present,
so on a payload lacking `round` the error branch is reached (`len`
applied to the integer default `0`) and no defaulted RaceID is
returned. -/
theorem C9_race_id_partiality (d : RaceData) :
    (_get_race_id d).isSome = d.round.isSome := by
  cases h : d.round with
  | none => simp [_get_race_id, h]
  | some rnd => simp [_get_race_id, h]

/-- C7 (code bug): evaluation of the row builders at payloads with
missing fields.  Missing `position`, `points`, `grid`, `laps` each
default silently to the sentinel `-1`, and a missing `season` defaults
to `-1` in the `Season` column; but a payload lacking the `round` key
makes `_get_race_id` — and hence the whole row construction — fail
rather than silently defaulting the round to `0` as documented. -/
theorem C7_silent_defaults_eval :
    resultRowOf 190001 exResultNoFields =
      ⟨190001, -1, -1, none, none, -1, -1, none, none, none, none⟩ ∧
    _get_race exPayloadRound1 =
      some ⟨1, -1, 1, none, none, "1900-01-01 01:01:01Z", none⟩ ∧
    _get_race_id exPayloadNoRound = none ∧
    _get_race exPayloadNoRound = none := by
  decide

/-- C4: if the storage directory exists but at least one of the five
expected files is missing, initialization leaves all five tables unset
— never a partially populated store. -/
theorem C4_missing_file_fallback (d : Disk) (hdir : d.dirExists = true)
    (h : d.files.races = none ∨ d.files.circuits = none ∨
         d.files.results = none ∨ d.files.drivers = none ∨
         d.files.constructors = none) :
    (initStore d).1 = emptyState := by
  obtain ⟨de, ⟨fr, fc, fs, fd, fco⟩⟩ := d
  cases fr <;> cases fc <;> cases fs <;> cases fd <;> cases fco <;>
    simp_all [initStore]

/-- Witness for C4: a directory with the results file absent
initializes to the fully unloaded state. -/
theorem C4_missing_file_fallback_witness :
    (⟨true, ⟨some [], some [], none, some [], some []⟩⟩ : Disk).dirExists = true ∧
    (initStore ⟨true, ⟨some [], some [], none, some [], some []⟩⟩).1 = emptyState :=
  ⟨rfl, C4_missing_file_fallback _ rfl (Or.inr (Or.inr (Or.inl rfl)))⟩

/-- C6: whenever any one of the five tables is unset, `save_data`
returns the no-op signal and writes none of the five files, leaving the
store and the on-disk snapshot untouched. -/
theorem C6_persist_skipped (w : World)
    (h : w.state.races = none ∨ w.state.circuits = none ∨
         w.state.results = none ∨ w.state.drivers = none ∨
         w.state.constructors = none) :
    save_data w = (w, SaveStatus.skipped) := by
  obtain ⟨⟨r0, c0, s0, d0, k0⟩, f⟩ := w
  cases r0 <;> cases c0 <;> cases s0 <;> cases d0 <;> cases k0 <;>
    simp_all [save_data]

/-- Witness for C6: a store with only the races table unset skips the
write and is returned unchanged. -/
theorem C6_persist_skipped_witness :
    save_data ⟨⟨none, some [], some [], some [], some []⟩,
      ⟨none, none, none, none, none⟩⟩ =
    (⟨⟨none, some [], some [], some [], some []⟩,
      ⟨none, none, none, none, none⟩⟩, SaveStatus.skipped) :=
  C6_persist_skipped _ (Or.inl rfl)

/-- C2: on a fully loaded store, when the latest upstream race's derived
RaceID is already present in the in-memory Race table, `update` returns
the data-is-up-to-date status and leaves the whole store — all five
tables and all five files — unchanged. -/
theorem C2_update_noop (w : World) (d : RaceData) (up : Upstream) (cy : Int)
    (ra : List RaceRow) (rid : Nat)
    (hra : w.state.races = some ra)
    (hci : w.state.circuits.isSome = true) (hre : w.state.results.isSome = true)
    (hdr : w.state.drivers.isSome = true) (hco : w.state.constructors.isSome = true)
    (hrid : _get_race_id d = some rid)
    (hmem : rid ∈ ra.map RaceRow.RaceID) :
    update w (some d) up cy = some (w, UpdateStatus.upToDate rid) := by
  unfold update
  rw [if_pos (by simp [_all_data_loaded, hra, hci, hre, hdr, hco])]
  simp only [hrid, hra, if_pos hmem]

/-- Witness for C2: a loaded store already containing RaceID 1 is
untouched by an update whose latest payload derives RaceID 1. -/
theorem C2_update_noop_witness :
    update ⟨⟨some [exRaceRow1], some [], some [], some [], some []⟩,
        ⟨none, none, none, none, none⟩⟩ (some exPayloadRound1)
        (fun _ => []) 2021 =
      some (⟨⟨some [exRaceRow1], some [], some [], some [], some []⟩,
        ⟨none, none, none, none, none⟩⟩, UpdateStatus.upToDate 1) :=
  C2_update_noop _ _ _ _ [exRaceRow1] 1 rfl rfl rfl rfl rfl (by decide) (by decide)

/-- C8 counterexample: for a table that itself contains a duplicated
row, concatenating it with itself and deduplicating loses a row, so the
result is not the original table. -/
theorem C8_dedup_closure_counterexample :
    drop_duplicates ([exRaceRow1, exRaceRow1] ++ [exRaceRow1, exRaceRow1]) ≠
      [exRaceRow1, exRaceRow1] := by
  decide

/-- C8 (amended): for every duplicate-free table — which all five
tables are after any persist — concatenating the table with itself and
applying full-row deduplication yields the original table: no row-count
growth and no row loss. -/
theorem C8_dedup_closure (α : Type) [DecidableEq α] (l : List α)
    (h : l.Nodup) : drop_duplicates (l ++ l) = l := by
  rw [drop_duplicates_append_self, drop_duplicates_eq_self h]

/-- Witness for C8 on a concrete duplicate-free races table. -/
theorem C8_dedup_closure_witness :
    drop_duplicates ([exRaceRow1, exRaceRow2] ++ [exRaceRow1, exRaceRow2]) =
      [exRaceRow1, exRaceRow2] :=
  C8_dedup_closure _ _ (by decide)

/-- C5 counterexample: starting from a fully loaded store whose Race
table holds a duplicated row followed by a distinct row, the first
persist writes the races file with index labels 0 and 2 (the dropped
duplicate leaves a gap, because `reset_index` runs before
`drop_duplicates`), while the second persist relabels 0 and 1: the two
outputs differ in the row-index column, so they are not
byte-identical. -/
theorem C5_idempotent_persist_counterexample :
    (save_data (save_data ⟨⟨some [exRaceRow1, exRaceRow1, exRaceRow2],
        some [exCircuitRow], some [exResultRow], some [exDriverRow],
        some [exConstructorRow]⟩, ⟨none, none, none, none, none⟩⟩).1).1.files ≠
    (save_data ⟨⟨some [exRaceRow1, exRaceRow1, exRaceRow2],
        some [exCircuitRow], some [exResultRow], some [exDriverRow],
        some [exConstructorRow]⟩, ⟨none, none, none, none, none⟩⟩).1.files := by
  decide

/-- C5 (amended): for every fully loaded store whose five tables are
free of duplicate rows — in particular any state produced by a previous
persist — calling `save_data` twice in a row with no intervening
mutation writes byte-identical files on the second call: the sort,
reset-index, drop-duplicates pipeline is a fixed point on its own
output.  (When a table still holds duplicate rows the first written
file keeps gapped index labels and the claim fails, see the
counterexample.) -/
theorem C5_idempotent_persist (ra : List RaceRow) (ci : List CircuitRow)
    (re : List ResultRow) (dr : List DriverRow) (co : List ConstructorRow)
    (f : DiskFiles) (nra : ra.Nodup) (nci : ci.Nodup) (nre : re.Nodup)
    (ndr : dr.Nodup) (nco : co.Nodup) :
    (save_data (save_data ⟨⟨some ra, some ci, some re, some dr, some co⟩,
        f⟩).1).1.files =
    (save_data ⟨⟨some ra, some ci, some re, some dr, some co⟩, f⟩).1.files := by
  simp only [save_data, sortRaces, sortCircuits, sortResults, sortDrivers,
    sortConstructors]
  rw [saveTable_idem RaceRow.RaceID ra nra,
    saveTable_idem (fun c => optStrKey c.CircuitID) ci nci,
    saveTable_idem resKey re nre,
    saveTable_idem (fun d2 => optStrKey d2.DriverID) dr ndr,
    saveTable_idem (fun c => optStrKey c.ConstructorID) co nco]

/-- Witness for C5 on a concrete duplicate-free loaded store. -/
theorem C5_idempotent_persist_witness :
    (save_data (save_data ⟨⟨some [exRaceRow1, exRaceRow2], some [exCircuitRow],
        some [exResultRow], some [exDriverRow], some [exConstructorRow]⟩,
        ⟨none, none, none, none, none⟩⟩).1).1.files =
    (save_data ⟨⟨some [exRaceRow1, exRaceRow2], some [exCircuitRow],
        some [exResultRow], some [exDriverRow], some [exConstructorRow]⟩,
        ⟨none, none, none, none, none⟩⟩).1.files :=
  C5_idempotent_persist _ _ _ _ _ _ (by decide) (by decide) (by decide)
    (by decide) (by decide)

/-- C10: when `scrape` runs on a store with data already loaded, the
files are written twice: `_scrape_date_range` first overwrites the
races file with the freshly fetched range only — a previously persisted
row outside the new batch is absent from that intermediate file — and
only the later `save_data` writes the merged table, in which the old
row reappears.  Between the two writes the on-disk races file no longer
contains the previously persisted history. -/
theorem C10_scrape_double_write (w : World) (up : Upstream) (cy start : Int)
    (endOpt : Option Int) (t : RawTables)
    (ra : List RaceRow) (ci : List CircuitRow) (re : List ResultRow)
    (dr : List DriverRow) (co : List ConstructorRow)
    (hra : w.state.races = some ra) (hci : w.state.circuits = some ci)
    (hre : w.state.results = some re) (hdr : w.state.drivers = some dr)
    (hco : w.state.constructors = some co)
    (hsy : scrapeYears up (intRange start (endOpt.getD cy)) = some t)
    (r : RaceRow) (hmem : r ∈ ra) (hnot : r ∉ t.races) :
    ∃ so, scrape w up cy start endOpt = some so ∧
      so.midFiles.races = some (reset_index t.races) ∧
      (∀ x ∈ reset_index t.races, x.2 ≠ r) ∧
      ∃ fr, so.world.files.races = some fr ∧ r ∈ fr.map Prod.snd := by
  have hsd : _scrape_date_range up cy start endOpt = some
      { tables := ⟨t.races, drop_duplicates t.circuits, t.results,
          drop_duplicates t.drivers, drop_duplicates t.constructors⟩
        files := ⟨some (reset_index t.races),
          some (dropDupRows (reset_index t.circuits)),
          some (reset_index t.results),
          some (dropDupRows (reset_index t.drivers)),
          some (dropDupRows (reset_index t.constructors))⟩ } := by
    unfold _scrape_date_range
    rw [hsy]
    rfl
  have hscrape : scrape w up cy start endOpt = some
      { world := (save_data ⟨⟨some (drop_duplicates (ra ++ t.races)),
          some (drop_duplicates (ci ++ drop_duplicates t.circuits)),
          some (drop_duplicates (re ++ t.results)),
          some (drop_duplicates (dr ++ drop_duplicates t.drivers)),
          some (drop_duplicates (co ++ drop_duplicates t.constructors))⟩,
          ⟨some (reset_index t.races),
           some (dropDupRows (reset_index t.circuits)),
           some (reset_index t.results),
           some (dropDupRows (reset_index t.drivers)),
           some (dropDupRows (reset_index t.constructors))⟩⟩).1
        midFiles := ⟨some (reset_index t.races),
          some (dropDupRows (reset_index t.circuits)),
          some (reset_index t.results),
          some (dropDupRows (reset_index t.drivers)),
          some (dropDupRows (reset_index t.constructors))⟩ } := by
    unfold scrape
    rw [hsd]
    simp [hra, hci, hre, hdr, hco]
  refine ⟨_, hscrape, rfl, ?_, ?_⟩
  · intro x hx heq
    apply hnot
    rw [← heq]
    have hx2 : x.2 ∈ (reset_index t.races).map Prod.snd :=
      List.mem_map_of_mem _ hx
    rwa [reset_index_map_snd] at hx2
  · refine ⟨dropDupRows (reset_index (sortRaces
      (drop_duplicates (ra ++ t.races)))), ?_, ?_⟩
    · simp [save_data]
    · rw [dropDupRows_map_snd, mem_drop_duplicates]
      unfold sortRaces
      rw [List.mem_insertionSort, mem_drop_duplicates]
      exact List.mem_append_left _ hmem

/-- Witness for C10: a loaded store whose races table holds a row for
RaceID 2 is scraped over an upstream range that yields no races at all;
the intermediate files drop the old row, the final merged file restores
it. -/
theorem C10_scrape_double_write_witness :
    ∃ so, scrape ⟨⟨some [exRaceRow2], some [exCircuitRow], some [exResultRow],
        some [exDriverRow], some [exConstructorRow]⟩,
        ⟨none, none, none, none, none⟩⟩ (fun _ => []) 2021 2021 (some 2021) =
        some so ∧
      so.midFiles.races = some (reset_index (emptyTables.races)) ∧
      (∀ x ∈ reset_index (emptyTables.races), x.2 ≠ exRaceRow2) ∧
      ∃ fr, so.world.files.races = some fr ∧ exRaceRow2 ∈ fr.map Prod.snd :=
  C10_scrape_double_write _ _ _ _ _ emptyTables [exRaceRow2] [exCircuitRow]
    [exResultRow] [exDriverRow] [exConstructorRow] rfl rfl rfl rfl rfl
    (by decide) exRaceRow2 (by decide) (by decide)

theorem get_append_length {α : Type} : ∀ (l : List α) (a : α)
    (h : l.length < (l ++ [a]).length), (l ++ [a]).get ⟨l.length, h⟩ = a
  | [], _, _ => rfl
  | x :: xs, a, h => get_append_length xs a (by simp)

theorem get_append_left {α : Type} : ∀ (l1 l2 : List α) (i : Nat)
    (h1 : i < l1.length) (h : i < (l1 ++ l2).length),
    (l1 ++ l2).get ⟨i, h⟩ = l1.get ⟨i, h1⟩
  | [], _, _, h1, _ => absurd h1 (by simp)
  | _ :: _, _, 0, _, _ => rfl
  | _ :: xs, l2, i + 1, h1, h =>
    get_append_left xs l2 i
      (by simp only [List.length_cons] at h1; omega)
      (by simp only [List.cons_append, List.length_cons] at h; omega)

theorem merge_rebuild_races (A B : List RaceRow) (hsub : ∀ a ∈ A, a ∈ B)
    (hinj : ∀ x ∈ B, ∀ y ∈ B, RaceRow.RaceID x = RaceRow.RaceID y → x = y) :
    drop_duplicates (sortRaces (drop_duplicates
      (drop_duplicates (sortRaces A) ++ B))) =
    drop_duplicates (sortRaces B) :=
  merge_rebuild RaceRow.RaceID A B hsub hinj

theorem merge_rebuild_results (A B : List ResultRow) (hsub : ∀ a ∈ A, a ∈ B)
    (hinj : ∀ x ∈ B, ∀ y ∈ B, resKey x = resKey y → x = y) :
    drop_duplicates (sortResults (drop_duplicates
      (drop_duplicates (sortResults A) ++ B))) =
    drop_duplicates (sortResults B) :=
  merge_rebuild resKey A B hsub hinj

theorem scrape_eval_fresh_parts (w : World) (up : Upstream) (cy start : Int)
    (endOpt : Option Int) (hrange : intRange start (endOpt.getD cy) = [start])
    (t : RawTables) (hcol : _collect_data_from (up start) = some t)
    (hw : w.state.races = none) :
    ∃ so, scrape w up cy start endOpt = some so ∧
      so.world.state.races = some (drop_duplicates (sortRaces t.races)) ∧
      so.world.state.results = some (drop_duplicates (sortResults t.results)) ∧
      ∃ ci dr2 co2, so.world.state.circuits = some ci ∧
        so.world.state.drivers = some dr2 ∧
        so.world.state.constructors = some co2 :=
  ⟨_, scrape_eval_fresh w up cy start endOpt hrange t hcol hw,
    rfl, rfl, _, _, _, rfl, rfl, rfl⟩

theorem scrape_eval_merge_parts (w : World) (up : Upstream) (cy start : Int)
    (endOpt : Option Int) (hrange : intRange start (endOpt.getD cy) = [start])
    (t : RawTables) (hcol : _collect_data_from (up start) = some t)
    (ra : List RaceRow) (ci : List CircuitRow) (re : List ResultRow)
    (dr : List DriverRow) (co : List ConstructorRow)
    (hra : w.state.races = some ra) (hci : w.state.circuits = some ci)
    (hre : w.state.results = some re) (hdr : w.state.drivers = some dr)
    (hco : w.state.constructors = some co) :
    ∃ so, scrape w up cy start endOpt = some so ∧
      so.world.state.races =
        some (drop_duplicates (sortRaces (drop_duplicates (ra ++ t.races)))) ∧
      so.world.state.results =
        some (drop_duplicates (sortResults (drop_duplicates (re ++ t.results)))) :=
  ⟨_, scrape_eval_merge w up cy start endOpt hrange t hcol ra ci re dr co
    hra hci hre hdr hco, rfl, rfl⟩

/-- C3: with a fixed upstream dataset for season 2021 — payloads with
the canonical season string, canonical round strings 1..k+1, at most 99
rounds, and duplicate-free positions within each race — running
`scrape 2021 2021` against the first k races, then publishing race k+1
upstream, then running `update`, yields the same Race and Result tables
as one fresh `scrape 2021 2021` against the post-publication dataset:
the concat-plus-dedup merge converges to the full rebuild. -/
theorem C3_incremental_equivalence (ps : List RaceData) (p : RaceData)
    (files0 : DiskFiles)
    (hne : ps ≠ [])
    (hlen : ps.length + 1 ≤ 99)
    (hseason : ∀ q ∈ ps ++ [p], q.season = some (decDigits 2021))
    (hround : ∀ i (hi : i < (ps ++ [p]).length),
      ((ps ++ [p]).get ⟨i, hi⟩).round = some (decDigits (i + 1)))
    (hpos : ∀ q ∈ ps ++ [p], (q.results.map positionVal).Nodup) :
    ∃ s1 w2 sf,
      scrape ⟨emptyState, files0⟩
          (fun y => if y = 2021 then ps.map some else []) 2021 2021
          (some 2021) = some s1 ∧
      update s1.world (some p)
          (fun y => if y = 2021 then (ps ++ [p]).map some else []) 2021 =
        some (w2, UpdateStatus.scraped) ∧
      scrape ⟨emptyState, files0⟩
          (fun y => if y = 2021 then (ps ++ [p]).map some else []) 2021 2021
          (some 2021) = some sf ∧
      w2.state.races = sf.world.state.races ∧
      w2.state.results = sf.world.state.results := by
  -- hypotheses restricted to the pre-publication prefix
  have hseasonA : ∀ q ∈ ps, q.season = some (decDigits 2021) :=
    fun q hq => hseason q (List.mem_append_left _ hq)
  have hroundA : ∀ i (hi : i < ps.length),
      (ps.get ⟨i, hi⟩).round = some (decDigits (i + 1)) := by
    intro i hi
    have hi2 : i < (ps ++ [p]).length := by
      simp only [List.length_append, List.length_singleton]
      omega
    have h := hround i hi2
    rwa [get_append_left ps [p] i hi hi2] at h
  have hroundSomeA : ∀ q ∈ ps, q.round.isSome := by
    intro q hq
    obtain ⟨⟨i, hi⟩, hgi⟩ := List.mem_iff_get.mp hq
    rw [← hgi, hroundA i hi]
    rfl
  have hroundSomeB : ∀ q ∈ ps ++ [p], q.round.isSome := by
    intro q hq
    obtain ⟨⟨i, hi⟩, hgi⟩ := List.mem_iff_get.mp hq
    rw [← hgi, hround i hi]
    rfl
  have hcolA := _collect_data_from_all_some ps hroundSomeA
  have hcolB := _collect_data_from_all_some (ps ++ [p]) hroundSomeB
  -- the first scrape, against the pre-publication dataset
  obtain ⟨s1, hs1, hs1r, hs1res, ci, dr2, co2, hs1c, hs1d, hs1k⟩ :=
    scrape_eval_fresh_parts ⟨emptyState, files0⟩
      (fun y => if y = 2021 then ps.map some else []) 2021 2021 (some 2021)
      (intRange_self 2021)
      { races := ps.map fun q => raceRowOf q (raceIdVal q)
        circuits := ps.map _get_circuit
        results := (ps.map fun q => q.results.map (resultRowOf (raceIdVal q))).flatten
        drivers := (ps.map fun q => q.results.map driverRowOf).flatten
        constructors := (ps.map fun q => q.results.map constructorRowOf).flatten }
      (by exact hcolA) rfl
  dsimp only at hs1r hs1res
  -- facts feeding the update call
  have hpr : p.round = some (decDigits (ps.length + 1)) := by
    have hi2 : ps.length < (ps ++ [p]).length := by
      simp only [List.length_append, List.length_singleton]
      omega
    have h := hround ps.length hi2
    rwa [get_append_length ps p hi2] at h
  have hps : p.season = some (decDigits 2021) :=
    hseason p (List.mem_append_right _ (List.mem_singleton_self p))
  have hrid : _get_race_id p = some (202100 + (ps.length + 1)) := by
    rw [_get_race_id_canonical (by omega) (by omega) hps hpr]
    have hv : digitsVal (decDigits 2021) = 2021 := by decide
    rw [hv]
  have hnot : (202100 + (ps.length + 1)) ∉
      (drop_duplicates (sortRaces (ps.map fun q =>
        raceRowOf q (raceIdVal q)))).map RaceRow.RaceID := by
    intro hmem2
    obtain ⟨row, hrow, hrid2⟩ := List.mem_map.mp hmem2
    rw [mem_drop_duplicates] at hrow
    unfold sortRaces at hrow
    rw [List.mem_insertionSort] at hrow
    obtain ⟨q, hq, hq2⟩ := List.mem_map.mp hrow
    obtain ⟨⟨i, hi⟩, hgi⟩ := List.mem_iff_get.mp hq
    have hxi : row.RaceID = 202100 + (i + 1) := by
      rw [← hq2, raceRowOf_RaceID, ← hgi]
      exact raceIdVal_at ps (by omega) hseasonA hroundA i hi
    omega
  have hmax : colMax ((drop_duplicates (sortRaces (ps.map fun q =>
      raceRowOf q (raceIdVal q)))).map RaceRow.Season) = some 2021 := by
    apply colMax_const
    · obtain ⟨q0, hq0⟩ := List.exists_mem_of_ne_nil ps hne
      have h2m : raceRowOf q0 (raceIdVal q0) ∈
          drop_duplicates (sortRaces (ps.map fun q =>
            raceRowOf q (raceIdVal q))) := by
        rw [mem_drop_duplicates]
        unfold sortRaces
        rw [List.mem_insertionSort]
        exact List.mem_map_of_mem _ hq0
      exact List.ne_nil_of_mem (List.mem_map_of_mem RaceRow.Season h2m)
    · intro x hx
      obtain ⟨row, hrow, hxe⟩ := List.mem_map.mp hx
      rw [mem_drop_duplicates] at hrow
      unfold sortRaces at hrow
      rw [List.mem_insertionSort] at hrow
      obtain ⟨q, hq, hq2⟩ := List.mem_map.mp hrow
      rw [← hxe, ← hq2, raceRowOf_Season, hseasonA q hq]
      decide
  -- the re-scrape triggered by the stale update
  obtain ⟨so2, hso2, hso2r, hso2res⟩ :=
    scrape_eval_merge_parts s1.world
      (fun y => if y = 2021 then (ps ++ [p]).map some else []) 2021 2021 none
      (intRange_self 2021)
      { races := (ps ++ [p]).map fun q => raceRowOf q (raceIdVal q)
        circuits := (ps ++ [p]).map _get_circuit
        results := ((ps ++ [p]).map fun q =>
          q.results.map (resultRowOf (raceIdVal q))).flatten
        drivers := ((ps ++ [p]).map fun q => q.results.map driverRowOf).flatten
        constructors := ((ps ++ [p]).map fun q =>
          q.results.map constructorRowOf).flatten }
      (by exact hcolB) _ ci _ dr2 co2 hs1r hs1c hs1res hs1d hs1k
  dsimp only at hso2r hso2res
  have hupd : update s1.world (some p)
      (fun y => if y = 2021 then (ps ++ [p]).map some else []) 2021 =
      some (so2.world, UpdateStatus.scraped) := by
    rw [update_not_current_eval s1.world p
      (fun y => if y = 2021 then (ps ++ [p]).map some else []) 2021
      (drop_duplicates (sortRaces (ps.map fun q => raceRowOf q (raceIdVal q))))
      (202100 + (ps.length + 1)) 2021 hs1r
      (by rw [hs1c]; rfl) (by rw [hs1res]; rfl) (by rw [hs1d]; rfl)
      (by rw [hs1k]; rfl) hrid hnot hmax]
    rw [hso2]
    rfl
  -- the fresh scrape against the post-publication dataset
  obtain ⟨sf, hsf, hsfr, hsfres, cif, drf, cof, hsfc, hsfd, hsfk⟩ :=
    scrape_eval_fresh_parts ⟨emptyState, files0⟩
      (fun y => if y = 2021 then (ps ++ [p]).map some else []) 2021 2021
      (some 2021) (intRange_self 2021)
      { races := (ps ++ [p]).map fun q => raceRowOf q (raceIdVal q)
        circuits := (ps ++ [p]).map _get_circuit
        results := ((ps ++ [p]).map fun q =>
          q.results.map (resultRowOf (raceIdVal q))).flatten
        drivers := ((ps ++ [p]).map fun q => q.results.map driverRowOf).flatten
        constructors := ((ps ++ [p]).map fun q =>
          q.results.map constructorRowOf).flatten }
      (by exact hcolB) rfl
  dsimp only at hsfr hsfres
  -- the membership inclusions and key injectivity for the merge
  have hsubR : ∀ a ∈ ps.map fun q => raceRowOf q (raceIdVal q),
      a ∈ (ps ++ [p]).map fun q => raceRowOf q (raceIdVal q) := by
    intro a ha
    obtain ⟨q, hq, hq2⟩ := List.mem_map.mp ha
    exact hq2 ▸ List.mem_map_of_mem _ (List.mem_append_left _ hq)
  have hinjR := races_key_inj (ps ++ [p])
    (by simp only [List.length_append, List.length_singleton]; omega)
    hseason hround
  have hsubRes : ∀ a ∈ (ps.map fun q =>
      q.results.map (resultRowOf (raceIdVal q))).flatten,
      a ∈ ((ps ++ [p]).map fun q =>
        q.results.map (resultRowOf (raceIdVal q))).flatten := by
    intro a ha
    obtain ⟨lsub, hlsub, ha2⟩ := List.mem_flatten.mp ha
    obtain ⟨q, hq, hq2⟩ := List.mem_map.mp hlsub
    exact List.mem_flatten.mpr
      ⟨lsub, hq2 ▸ List.mem_map_of_mem _ (List.mem_append_left _ hq), ha2⟩
  have hinjRes := results_key_inj (ps ++ [p])
    (by simp only [List.length_append, List.length_singleton]; omega)
    hseason hround hpos
  refine ⟨s1, so2.world, sf, hs1, hupd, hsf, ?_, ?_⟩
  · rw [hso2r, hsfr]
    exact congrArg some (merge_rebuild_races _ _ hsubR hinjR)
  · rw [hso2res, hsfres]
    exact congrArg some (merge_rebuild_results _ _ hsubRes hinjRes)

/-- Witness for C3 at a concrete one-race season plus one newly
published race. -/
theorem C3_incremental_equivalence_witness :
    ∃ s1 w2 sf,
      scrape ⟨emptyState, ⟨none, none, none, none, none⟩⟩
          (fun y => if y = 2021 then [exPayload2021 1].map some else []) 2021
          2021 (some 2021) = some s1 ∧
      update s1.world (some (exPayload2021 2))
          (fun y => if y = 2021 then
            ([exPayload2021 1] ++ [exPayload2021 2]).map some else []) 2021 =
        some (w2, UpdateStatus.scraped) ∧
      scrape ⟨emptyState, ⟨none, none, none, none, none⟩⟩
          (fun y => if y = 2021 then
            ([exPayload2021 1] ++ [exPayload2021 2]).map some else []) 2021
          2021 (some 2021) = some sf ∧
      w2.state.races = sf.world.state.races ∧
      w2.state.results = sf.world.state.results :=
  C3_incremental_equivalence [exPayload2021 1] (exPayload2021 2)
    ⟨none, none, none, none, none⟩ (by decide) (by decide) (by decide)
    (by
      intro i hi
      simp only [List.length_append, List.length_singleton] at hi
      interval_cases i
      · rfl
      · rfl)
    (by decide)
